import Mathlib

/-!
Shallow embedding of `manca/manca.py` (function `cluster_graph`): the
diffusion-and-convergence clustering loop over a weighted undirected graph.
External collaborators (the random source, KMeans and silhouette_score) are
modelled as an oracle record, following the external-interface boundary of the
program; everything else is translated directly from the source.
-/

namespace Manca

/-- Python exceptions that the embedded code can raise. -/
inductive PyErr where
  | keyError : PyErr
  | typeError : PyErr
  | indexError : PyErr
deriving DecidableEq, Repr

instance {ε α : Type} [DecidableEq ε] [DecidableEq α] : DecidableEq (Except ε α) := fun x y =>
  match x, y with
  | .ok a, .ok b =>
    if h : a = b then .isTrue (by rw [h]) else .isFalse (by intro hc; cases hc; exact h rfl)
  | .ok _, .error _ => .isFalse (by intro hc; cases hc)
  | .error _, .ok _ => .isFalse (by intro hc; cases hc)
  | .error e, .error f =>
    if h : e = f then .isTrue (by rw [h]) else .isFalse (by intro hc; cases hc; exact h rfl)

/-- A networkx-style weighted undirected graph: a node list (in insertion
order, as `list(graph.nodes)`) and an edge list; an edge's weight attribute
may be absent (`none`). -/
structure Graph where
  nodes : List Nat
  edges : List (Nat × Nat × Option ℚ)
deriving DecidableEq

/-- `graph.neighbors(v)`: endpoints of edges incident to `v`. -/
def neighbors (g : Graph) (v : Nat) : List Nat :=
  g.edges.filterMap (fun e => if e.1 = v then some e.2.1 else if e.2.1 = v then some e.1 else none)

/-- `graph.get_edge_data(u, v)`: `none` when no such edge exists (Python
returns `None`); otherwise the attribute dict, holding an optional weight. -/
def edgeData (g : Graph) (u v : Nat) : Option (Option ℚ) :=
  (g.edges.find? (fun e => (e.1 == u && e.2.1 == v) || (e.1 == v && e.2.1 == u))).map
    (fun e => e.2.2)

/-- The diffusion loop's weight lookup:
`try: weight = graph.get_edge_data(nb, new_nb)['weight'] except KeyError: weight = 1.0`.
A missing weight attribute (KeyError) is caught and replaced by 1.0; a missing
edge would make `get_edge_data` return `None` and raise an uncaught TypeError. -/
def diffWeight (g : Graph) (u v : Nat) : Except PyErr ℚ :=
  match edgeData g u v with
  | some (some w) => .ok w
  | some none => .ok 1
  | none => .error .typeError

/-- The affinity matrix `adj`, indexed by dense node positions. -/
abbrev Mat := Nat → Nat → ℚ

/-- `adj_index[v]`: position of node `v` in `list(graph.nodes)`. -/
def adjIndex (g : Graph) (v : Nat) : Nat :=
  g.nodes.findIdx (fun x => x == v)

/-- `adj[i, j] += w` on one cell. -/
def addAt (A : Mat) (i j : Nat) (w : ℚ) : Mat :=
  fun a b => if a = i ∧ b = j then A a b + w else A a b

/-- The paired update `adj[i, j] += w; adj[j, i] += w` of the source
(both sides receive the weight because the graph is undirected). -/
def addSym (A : Mat) (i j : Nat) (w : ℚ) : Mat :=
  addAt (addAt A i j w) j i w

/-- Innermost diffusion loop: `for new_nb in graph.neighbors(nb)`, adding
`weight * nbs[nb]` at `(adj_index[node], adj_index[new_nb])` and its mirror,
and appending `{new_nb: weight * nbs[nb]}` to `new_upper`. -/
def diffNbStep (g : Graph) (seedIdx nb : Nat) (mag : ℚ) :
    List Nat → Mat → List (Nat × ℚ) → Except PyErr (Mat × List (Nat × ℚ))
  | [], A, front => .ok (A, front)
  | newNb :: rest, A, front =>
    match diffWeight g nb newNb with
    | .error e => .error e
    | .ok w =>
        diffNbStep g seedIdx nb mag rest
          (addSym A seedIdx (adjIndex g newNb) (w * mag)) (front ++ [(newNb, w * mag)])

/-- Middle diffusion loop: `for nbs in upper_diff` (each `nbs` is the
singleton dict built one level up, so the frontier is a list of
node-magnitude pairs). -/
def diffFront (g : Graph) (seedIdx : Nat) :
    List (Nat × ℚ) → Mat → List (Nat × ℚ) → Except PyErr (Mat × List (Nat × ℚ))
  | [], A, front => .ok (A, front)
  | (nb, mag) :: rest, A, front =>
    match diffNbStep g seedIdx nb mag (neighbors g nb) A front with
    | .error e => .error e
    | .ok (A2, front2) => diffFront g seedIdx rest A2 front2

/-- Outer diffusion loop: `for i in range(diff_range)`, replacing
`upper_diff` by `new_upper` after each hop. -/
def diffHops (g : Graph) (seedIdx : Nat) :
    Nat → List (Nat × ℚ) → Mat → Except PyErr Mat
  | 0, _, A => .ok A
  | k + 1, front, A =>
    match diffFront g seedIdx front A [] with
    | .error e => .error e
    | .ok (A2, front2) => diffHops g seedIdx k front2 A2

/-- One round's diffusion from seed node `seed`: frontier starts as
`[{seed: 1.0}]` and `diff_range` hops are performed, mutating `adj`. -/
def diffuse (g : Graph) (seed : Nat) (diffRange : Nat) (A : Mat) : Except PyErr Mat :=
  diffHops g (adjIndex g seed) diffRange [(seed, 1)] A

/-- `np.argmax` helper: first index of the maximum, scanning with a strict
comparison so earlier indices win ties. -/
def argmaxFrom : List ℚ → Nat → Nat → ℚ → Nat
  | [], _, bi, _ => bi
  | x :: rest, i, bi, bv =>
    if bv < x then argmaxFrom rest (i + 1) i x else argmaxFrom rest (i + 1) bi bv

/-- `int(np.argmax(sh_score))`: first index holding the maximum. -/
def argmaxIdx : List ℚ → Nat
  | [] => 0
  | x :: rest => argmaxFrom rest 1 0 x

/-- External collaborators and the ambient randomness, indexed by the number
of loop-body executions so far: the random seed draw for `choice`, the
silhouette score of the random baseline labelling (already 0 when the scorer
failed on a degenerate labelling), the silhouette score of the KMeans
clustering for each candidate count (again 0 on scorer failure), and the
KMeans assignment for each candidate count. -/
structure Oracle where
  seed : Nat → Nat
  baseline : Nat → ℚ
  silhouette : Nat → Nat → ℚ
  kmeans : Nat → Nat → List Nat

/-- The quality score vector `sh_score`: the baseline at index 0 followed by
the candidate scores for counts `1 .. max_clusters`. -/
def shScores (o : Oracle) (maxClusters t : Nat) : List ℚ :=
  o.baseline t :: (List.range maxClusters).map (fun j => o.silhouette t (j + 1))

/-- `topscore = int(np.argmax(sh_score))` at round `t`. -/
def topscoreAt (o : Oracle) (maxClusters t : Nat) : Nat :=
  argmaxIdx (shScores o maxClusters t)

/-- `np.where(bestcluster == cluster_id)[0]` mapped through
`rev_index.get(item, item)`: member node names of one cluster. -/
def clusterMembers (g : Graph) (bc : List Nat) (cid : Nat) : List Nat :=
  ((List.range bc.length).filter (fun i => bc.getD i 0 == cid)).map
    (fun i => g.nodes.getD i i)

/-- Innermost sparsity loop over `graph.neighbors(node)`: neighbors outside
the cluster contribute `+1` for a positive weight and `-1` otherwise; the
weight lookup `graph.get_edge_data(node, nb)['weight']` has no exception
handler, so a missing weight attribute raises KeyError. -/
def sparsityNbs (g : Graph) (memberIds : List Nat) (node : Nat) :
    List Nat → Int → Except PyErr Int
  | [], acc => .ok acc
  | nb :: rest, acc =>
    if memberIds.contains nb then sparsityNbs g memberIds node rest acc
    else
      match edgeData g node nb with
      | none => .error .typeError
      | some none => .error .keyError
      | some (some w) =>
          sparsityNbs g memberIds node rest (if 0 < w then acc + 1 else acc - 1)

/-- `for node in cluster.nodes`: per-member accumulation of the cut score. -/
def sparsityNodes (g : Graph) (memberIds : List Nat) :
    List Nat → Int → Except PyErr Int
  | [], acc => .ok acc
  | v :: rest, acc =>
    match sparsityNbs g memberIds v (neighbors g v) acc with
    | .error e => .error e
    | .ok acc2 => sparsityNodes g memberIds rest acc2

/-- `for cluster_id in set(bestcluster)`: the subgraph induced by a cluster's
member names is scanned in graph node order. -/
def sparsityClusters (g : Graph) (bc : List Nat) :
    List Nat → Int → Except PyErr Int
  | [], acc => .ok acc
  | cid :: rest, acc =>
    match
      sparsityNodes g (clusterMembers g bc cid)
        (g.nodes.filter (fun v => (clusterMembers g bc cid).contains v)) acc with
    | .error e => .error e
    | .ok acc2 => sparsityClusters g bc rest acc2

/-- The sparsity (signed cut size) of assignment `bc` on graph `g`. -/
def sparsityOf (g : Graph) (bc : List Nat) : Except PyErr Int :=
  sparsityClusters g bc bc.dedup 0

/-- The delay update of the source:
`if prev_sparsity > sparsity: delay = 0` then
`if prev_sparsity == sparsity: delay += 1` (a strict increase leaves delay
unchanged). -/
def delayUpdate (prev delay s : Int) : Int :=
  if prev > s then 0 else if prev = s then delay + 1 else delay

/-- The loop-carried state of `cluster_graph`. -/
structure LoopState where
  delay : Int
  prevSparsity : Int
  iters : Int
  best : Option (List Nat)
  adj : Mat

/-- State before the first round: `delay = 0`, `prev_sparsity = 0`,
`iters = 0`, `bestcluster` unset, `adj = np.zeros((N, N))`. -/
def initState (_g : Graph) : LoopState :=
  ⟨0, 0, 0, none, fun _ _ => 0⟩

/-- `choice(list(graph.nodes))` at round `t`, with the oracle's draw reduced
modulo the node count so the result is a uniform-style pick of a real node
(empty graphs are handled by the caller). -/
def seedAt (g : Graph) (o : Oracle) (t : Nat) : Nat :=
  match g.nodes with
  | [] => 0
  | n0 :: _ => g.nodes.getD (o.seed t % g.nodes.length) n0

/-- The matrix position of round `t`'s seed node. -/
def seedIdxAt (g : Graph) (o : Oracle) (t : Nat) : Nat :=
  adjIndex g (seedAt g o t)

/-- One execution of the while-loop body: seed choice (IndexError on an empty
node list), diffusion into `adj`, then cluster selection; `bestcluster` is
reset to `None` before selection, and only when `topscore != 0` does the body
recluster, recompute sparsity, and update `delay`, `prev_sparsity`, `iters`. -/
def roundStep (g : Graph) (o : Oracle) (diffRange maxClusters t : Nat) (s : LoopState) :
    Except PyErr LoopState :=
  match g.nodes with
  | [] => .error .indexError
  | _ :: _ =>
    match diffuse g (seedAt g o t) diffRange s.adj with
    | .error e => .error e
    | .ok adjNew =>
      if topscoreAt o maxClusters t ≠ 0 then
        match sparsityOf g (o.kmeans t (topscoreAt o maxClusters t)) with
        | .error e => .error e
        | .ok sp =>
            .ok ⟨delayUpdate s.prevSparsity s.delay sp, sp, s.iters + 1,
                 some (o.kmeans t (topscoreAt o maxClusters t)), adjNew⟩
      else .ok ⟨s.delay, s.prevSparsity, s.iters, none, adjNew⟩

/-- Result of running the while loop with a fuel bound: `done` when the loop
condition failed (normal exit), `more` when the fuel ran out with the
condition still true, `err` when the body raised. -/
inductive RunResult where
  | done : LoopState → RunResult
  | more : LoopState → RunResult
  | err : PyErr → RunResult

/-- `while delay < limit and iters < iterations:` run for at most `fuel` body
executions, `t` counting the bodies executed so far. -/
def loopRun (g : Graph) (o : Oracle) (limit : Int) (diffRange maxClusters : Nat)
    (iterations : Int) : Nat → Nat → LoopState → RunResult
  | 0, _, s => if s.delay < limit ∧ s.iters < iterations then .more s else .done s
  | fuel + 1, t, s =>
    if s.delay < limit ∧ s.iters < iterations then
      match roundStep g o diffRange maxClusters t s with
      | .ok s2 => loopRun g o limit diffRange maxClusters iterations fuel (t + 1) s2
      | .error e => .err e
    else .done s

/-- The loop state carried out of a run, when the body did not raise. -/
def resultState : RunResult → Option LoopState
  | .done s => some s
  | .more s => some s
  | .err _ => none

/-- `clusdict[list(graph.nodes)[i]] = bestcluster[i]` for the given index
list; an index beyond the assignment raises IndexError. -/
def labelNodes (g : Graph) (bc : List Nat) : List Nat → Except PyErr (List (Nat × Nat))
  | [] => .ok []
  | i :: rest =>
    match bc.get? i with
    | none => .error .indexError
    | some c =>
      match labelNodes g bc rest with
      | .error e => .error e
      | .ok tail => .ok ((g.nodes.getD i 0, c) :: tail)

/-- The write-back loop `for i in range(len(graph.nodes))`: subscripting a
`None` assignment raises TypeError as soon as the range is nonempty. -/
def writeLabels (g : Graph) (best : Option (List Nat)) : Except PyErr (List (Nat × Nat)) :=
  match g.nodes.length, best with
  | 0, _ => .ok []
  | _ + 1, none => .error .typeError
  | n + 1, some bc => labelNodes g bc (List.range (n + 1))

/-- `cluster_graph(graph, limit, diff_range, max_clusters, iterations)` with
a fuel bound on the loop: `none` when the fuel ran out, otherwise the raised
exception or the node labelling together with the flag of the post-loop
warning test, which the source writes literally as `if iters == 1000`. -/
def cluster_graph (g : Graph) (o : Oracle) (limit : Int) (diffRange maxClusters : Nat)
    (iterations : Int) (fuel : Nat) : Option (Except PyErr (List (Nat × Nat) × Bool)) :=
  match loopRun g o limit diffRange maxClusters iterations fuel 0 (initState g) with
  | .more _ => none
  | .err e => some (.error e)
  | .done s =>
    match writeLabels g s.best with
    | .error e => some (.error e)
    | .ok labels => some (.ok (labels, s.iters == 1000))

/-- The convergence controller alone, driven by a given trace of per-round
sparsity values: state `(prev_sparsity, delay, rounds executed)`, one round
consumed per body execution while `delay < limit` holds, using the same
`delayUpdate` as `roundStep`. -/
def convRun (limit : Int) : List Int → Int × Int × Nat → Int × Int × Nat
  | [], st => st
  | s :: rest, (prev, delay, n) =>
    if delay < limit then convRun limit rest (s, delayUpdate prev delay s, n + 1)
    else (prev, delay, n)


/-- A two-node graph with one edge of weight 1, a concrete test input. -/
def g2 : Graph := ⟨[0, 1], [(0, 1, some 1)]⟩

/-- An oracle under which every candidate clustering beats the random
baseline (candidate silhouettes 1 against baseline 0) and KMeans always
returns the single-cluster assignment `[0, 0]`. -/
def o2 : Oracle := ⟨fun _ => 0, fun _ => 0, fun _ _ => 1, fun _ _ => [0, 0]⟩

/-- An oracle under which the random baseline wins the silhouette comparison
every round (baseline 1 against candidate scores 0), so `topscore` is 0. -/
def oC1 : Oracle := ⟨fun _ => 0, fun _ => 1, fun _ _ => 0, fun _ _ => [0, 0]⟩

/-- Two nodes joined by an edge that has no weight attribute. -/
def g4 : Graph := ⟨[0, 1], [(0, 1, none)]⟩

/-- An oracle selecting the two-cluster assignment `[0, 1]` every round. -/
def o4 : Oracle := ⟨fun _ => 0, fun _ => 0, fun _ _ => 1, fun _ _ => [0, 1]⟩

/-- Two triangles `{0,1,2}` and `{3,4,5}` joined by the single positive
bridge edge `2 - 3`; every edge has weight 1. -/
def gTri : Graph :=
  ⟨[0, 1, 2, 3, 4, 5],
   [(0, 1, some 1), (0, 2, some 1), (1, 2, some 1),
    (3, 4, some 1), (3, 5, some 1), (4, 5, some 1), (2, 3, some 1)]⟩

/-- The two-cluster assignment matching the two triangles of `gTri`. -/
def bcTri : List Nat := [0, 0, 0, 1, 1, 1]

/-- A loop state that already holds a cluster assignment. -/
def sHeld : LoopState := ⟨0, 0, 0, some [1, 1], fun _ _ => 0⟩

/-- The state after one productive round of `o2` on `g2` from the start. -/
def s2r0 : LoopState :=
  match roundStep g2 o2 3 1 0 (initState g2) with
  | .ok s => s
  | .error _ => initState g2

/-- The state after one baseline-winning round of `oC1` on `g2` from `sHeld`. -/
def s8run : LoopState :=
  match roundStep g2 oC1 3 1 0 sHeld with
  | .ok s => s
  | .error _ => sHeld

/-- The state carried out of a one-round fuel-limited run of `o2` on `g2`. -/
def s7run : LoopState :=
  match resultState (loopRun g2 o2 100 3 1 5 1 0 (initState g2)) with
  | some s => s
  | none => initState g2

/-- Symmetry of an affinity matrix. -/
def Symm (A : Mat) : Prop := ∀ i j, A i j = A j i

theorem addSym_apply (A : Mat) (i j : Nat) (w : ℚ) (a b : Nat) :
    addSym A i j w a b =
      A a b + (if a = i ∧ b = j then w else 0) + (if a = j ∧ b = i then w else 0) := by
  simp only [addSym, addAt]
  split_ifs <;> ring

theorem addSym_symm (A : Mat) (i j : Nat) (w : ℚ) (h : Symm A) : Symm (addSym A i j w) := by
  intro a b
  rw [addSym_apply, addSym_apply, h a b]
  simp only [show (b = j ∧ a = i) ↔ (a = i ∧ b = j) from by tauto,
             show (b = i ∧ a = j) ↔ (a = j ∧ b = i) from by tauto]
  ring

theorem addSym_frame (A : Mat) (i j : Nat) (w : ℚ) (a b : Nat) (ha : a ≠ i) (hb : b ≠ i) :
    addSym A i j w a b = A a b := by
  simp only [addSym, addAt]
  split_ifs with h1 h2 h2
  · exact absurd h1.2 hb
  · exact absurd h1.2 hb
  · exact absurd h2.1 ha
  · rfl

theorem diffNbStep_symm (g : Graph) (si nb : Nat) (mag : ℚ) :
    ∀ (l : List Nat) (A : Mat) (front : List (Nat × ℚ)) (A2 : Mat) (front2 : List (Nat × ℚ)),
      Symm A → diffNbStep g si nb mag l A front = .ok (A2, front2) → Symm A2 := by
  intro l
  induction l with
  | nil =>
    intro A front A2 front2 hA h
    simp only [diffNbStep, Except.ok.injEq, Prod.mk.injEq] at h
    exact h.1 ▸ hA
  | cons x rest ih =>
    intro A front A2 front2 hA h
    simp only [diffNbStep] at h
    cases hw : diffWeight g nb x with
    | error e => rw [hw] at h; cases h
    | ok w => rw [hw] at h; exact ih _ _ _ _ (addSym_symm _ _ _ _ hA) h

theorem diffNbStep_frame (g : Graph) (si nb : Nat) (mag : ℚ) :
    ∀ (l : List Nat) (A : Mat) (front : List (Nat × ℚ)) (A2 : Mat) (front2 : List (Nat × ℚ)),
      diffNbStep g si nb mag l A front = .ok (A2, front2) →
      ∀ a b, a ≠ si → b ≠ si → A2 a b = A a b := by
  intro l
  induction l with
  | nil =>
    intro A front A2 front2 h a b _ _
    simp only [diffNbStep, Except.ok.injEq, Prod.mk.injEq] at h
    rw [← h.1]
  | cons x rest ih =>
    intro A front A2 front2 h a b ha hb
    simp only [diffNbStep] at h
    cases hw : diffWeight g nb x with
    | error e => rw [hw] at h; cases h
    | ok w =>
      rw [hw] at h
      rw [ih _ _ _ _ h a b ha hb]
      exact addSym_frame _ _ _ _ _ _ ha hb

theorem diffFront_symm (g : Graph) (si : Nat) :
    ∀ (fr : List (Nat × ℚ)) (A : Mat) (acc : List (Nat × ℚ)) (A2 : Mat) (front2 : List (Nat × ℚ)),
      Symm A → diffFront g si fr A acc = .ok (A2, front2) → Symm A2 := by
  intro fr
  induction fr with
  | nil =>
    intro A acc A2 front2 hA h
    simp only [diffFront, Except.ok.injEq, Prod.mk.injEq] at h
    exact h.1 ▸ hA
  | cons x rest ih =>
    intro A acc A2 front2 hA h
    simp only [diffFront] at h
    cases hs : diffNbStep g si x.1 x.2 (neighbors g x.1) A acc with
    | error e => rw [hs] at h; cases h
    | ok p => rw [hs] at h; exact ih _ _ _ _ (diffNbStep_symm _ _ _ _ _ _ _ _ _ hA hs) h

theorem diffFront_frame (g : Graph) (si : Nat) :
    ∀ (fr : List (Nat × ℚ)) (A : Mat) (acc : List (Nat × ℚ)) (A2 : Mat) (front2 : List (Nat × ℚ)),
      diffFront g si fr A acc = .ok (A2, front2) →
      ∀ a b, a ≠ si → b ≠ si → A2 a b = A a b := by
  intro fr
  induction fr with
  | nil =>
    intro A acc A2 front2 h a b _ _
    simp only [diffFront, Except.ok.injEq, Prod.mk.injEq] at h
    rw [← h.1]
  | cons x rest ih =>
    intro A acc A2 front2 h a b ha hb
    simp only [diffFront] at h
    cases hs : diffNbStep g si x.1 x.2 (neighbors g x.1) A acc with
    | error e => rw [hs] at h; cases h
    | ok p =>
      rw [hs] at h
      rw [ih _ _ _ _ h a b ha hb]
      exact diffNbStep_frame _ _ _ _ _ _ _ _ _ hs a b ha hb

theorem diffHops_symm (g : Graph) (si : Nat) :
    ∀ (k : Nat) (fr : List (Nat × ℚ)) (A A2 : Mat),
      Symm A → diffHops g si k fr A = .ok A2 → Symm A2 := by
  intro k
  induction k with
  | zero =>
    intro fr A A2 hA h
    simp only [diffHops, Except.ok.injEq] at h
    exact h ▸ hA
  | succ n ih =>
    intro fr A A2 hA h
    simp only [diffHops] at h
    cases hs : diffFront g si fr A [] with
    | error e => rw [hs] at h; cases h
    | ok p => rw [hs] at h; exact ih _ _ _ (diffFront_symm _ _ _ _ _ _ _ hA hs) h

theorem diffHops_frame (g : Graph) (si : Nat) :
    ∀ (k : Nat) (fr : List (Nat × ℚ)) (A A2 : Mat),
      diffHops g si k fr A = .ok A2 → ∀ a b, a ≠ si → b ≠ si → A2 a b = A a b := by
  intro k
  induction k with
  | zero =>
    intro fr A A2 h a b _ _
    simp only [diffHops, Except.ok.injEq] at h
    rw [← h]
  | succ n ih =>
    intro fr A A2 h a b ha hb
    simp only [diffHops] at h
    cases hs : diffFront g si fr A [] with
    | error e => rw [hs] at h; cases h
    | ok p =>
      rw [hs] at h
      rw [ih _ _ _ h a b ha hb]
      exact diffFront_frame _ _ _ _ _ _ _ hs a b ha hb

theorem diffuse_symm (g : Graph) (seed dr : Nat) (A A2 : Mat)
    (hA : Symm A) (h : diffuse g seed dr A = .ok A2) : Symm A2 :=
  diffHops_symm g (adjIndex g seed) dr [(seed, 1)] A A2 hA h

theorem diffuse_frame (g : Graph) (seed dr : Nat) (A A2 : Mat)
    (h : diffuse g seed dr A = .ok A2) :
    ∀ a b, a ≠ adjIndex g seed → b ≠ adjIndex g seed → A2 a b = A a b :=
  diffHops_frame g (adjIndex g seed) dr [(seed, 1)] A A2 h

theorem roundStep_cases (g : Graph) (o : Oracle) (dr mc t : Nat) (s s2 : LoopState)
    (h : roundStep g o dr mc t s = .ok s2) :
    ∃ adjNew, diffuse g (seedAt g o t) dr s.adj = .ok adjNew ∧
      ((topscoreAt o mc t ≠ 0 ∧ ∃ sp,
          sparsityOf g (o.kmeans t (topscoreAt o mc t)) = .ok sp ∧
          s2 = ⟨delayUpdate s.prevSparsity s.delay sp, sp, s.iters + 1,
                some (o.kmeans t (topscoreAt o mc t)), adjNew⟩) ∨
       (topscoreAt o mc t = 0 ∧ s2 = ⟨s.delay, s.prevSparsity, s.iters, none, adjNew⟩)) := by
  unfold roundStep at h
  split at h
  · exact Except.noConfusion h
  · split at h
    · exact Except.noConfusion h
    · rename_i adjNew hdiff
      refine ⟨adjNew, hdiff, ?_⟩
      split at h
      · rename_i htop
        split at h
        · exact Except.noConfusion h
        · rename_i sp hsp
          injection h with h2
          exact Or.inl ⟨htop, sp, hsp, h2.symm⟩
      · rename_i htop
        injection h with h2
        exact Or.inr ⟨not_not.mp htop, h2.symm⟩

theorem roundStep_symm (g : Graph) (o : Oracle) (dr mc t : Nat) (s s2 : LoopState)
    (hA : Symm s.adj) (h : roundStep g o dr mc t s = .ok s2) : Symm s2.adj := by
  obtain ⟨A2, hd, hc⟩ := roundStep_cases g o dr mc t s s2 h
  rcases hc with ⟨_, sp, _, rfl⟩ | ⟨_, rfl⟩ <;>
    exact diffuse_symm g (seedAt g o t) dr s.adj A2 hA hd

theorem roundStep_frame (g : Graph) (o : Oracle) (dr mc t : Nat) (s s2 : LoopState)
    (h : roundStep g o dr mc t s = .ok s2) :
    ∀ a b, a ≠ seedIdxAt g o t → b ≠ seedIdxAt g o t → s2.adj a b = s.adj a b := by
  obtain ⟨A2, hd, hc⟩ := roundStep_cases g o dr mc t s s2 h
  rcases hc with ⟨_, sp, _, rfl⟩ | ⟨_, rfl⟩ <;>
    exact diffuse_frame g (seedAt g o t) dr s.adj A2 hd

theorem loopRun_symm (g : Graph) (o : Oracle) (limit : Int) (dr mc : Nat) (iterations : Int) :
    ∀ (fuel t : Nat) (s s2 : LoopState), Symm s.adj →
      resultState (loopRun g o limit dr mc iterations fuel t s) = some s2 → Symm s2.adj := by
  intro fuel
  induction fuel with
  | zero =>
    intro t s s2 hA h
    simp only [loopRun] at h
    split at h <;> simp only [resultState, Option.some.injEq] at h <;> exact h ▸ hA
  | succ k ih =>
    intro t s s2 hA h
    simp only [loopRun] at h
    split at h
    · cases hr : roundStep g o dr mc t s with
      | error e => rw [hr] at h; simp only [resultState] at h; exact Option.noConfusion h
      | ok s3 =>
          rw [hr] at h
          exact ih (t + 1) s3 s2 (roundStep_symm g o dr mc t s s3 hA hr) h
    · simp only [resultState, Option.some.injEq] at h
      exact h ▸ hA

/-- Entries of the affinity matrix can be nonzero only at a row or column
belonging to the seed of one of the first `T` rounds. -/
def SeedInv (g : Graph) (o : Oracle) (T : Nat) (A : Mat) : Prop :=
  ∀ i j, A i j ≠ 0 → ∃ t, t < T ∧ (i = seedIdxAt g o t ∨ j = seedIdxAt g o t)

theorem seedInv_mono (g : Graph) (o : Oracle) {T T' : Nat} (h : T ≤ T') {A : Mat}
    (hA : SeedInv g o T A) : SeedInv g o T' A := by
  intro i j hne
  obtain ⟨t, ht, hor⟩ := hA i j hne
  exact ⟨t, lt_of_lt_of_le ht h, hor⟩

theorem roundStep_seedInv (g : Graph) (o : Oracle) (dr mc t : Nat) (s s2 : LoopState)
    (h : roundStep g o dr mc t s = .ok s2) (hA : SeedInv g o t s.adj) :
    SeedInv g o (t + 1) s2.adj := by
  intro i j hne
  by_cases hi : i = seedIdxAt g o t
  · exact ⟨t, Nat.lt_succ_self t, Or.inl hi⟩
  by_cases hj : j = seedIdxAt g o t
  · exact ⟨t, Nat.lt_succ_self t, Or.inr hj⟩
  rw [roundStep_frame g o dr mc t s s2 h i j hi hj] at hne
  exact seedInv_mono g o (Nat.le_succ t) hA i j hne

theorem loopRun_seedInv (g : Graph) (o : Oracle) (limit : Int) (dr mc : Nat) (iterations : Int) :
    ∀ (fuel t : Nat) (s s2 : LoopState), SeedInv g o t s.adj →
      resultState (loopRun g o limit dr mc iterations fuel t s) = some s2 →
      SeedInv g o (t + fuel) s2.adj := by
  intro fuel
  induction fuel with
  | zero =>
    intro t s s2 hA h
    simp only [loopRun] at h
    split at h <;> simp only [resultState, Option.some.injEq] at h <;> exact h ▸ hA
  | succ k ih =>
    intro t s s2 hA h
    simp only [loopRun] at h
    split at h
    · cases hr : roundStep g o dr mc t s with
      | error e => rw [hr] at h; simp only [resultState] at h; exact Option.noConfusion h
      | ok s3 =>
          rw [hr] at h
          have h2 := ih (t + 1) s3 s2 (roundStep_seedInv g o dr mc t s s3 hr hA) h
          have he : t + 1 + k = t + (k + 1) := by omega
          exact he ▸ h2
    · simp only [resultState, Option.some.injEq] at h
      exact seedInv_mono g o (Nat.le_add_right t (k + 1)) (h ▸ hA)

theorem c1_baseline_rounds_aux :
    ∀ (fuel t : Nat) (s : LoopState), s.delay = 0 → s.iters = 0 →
      ∃ s2, loopRun g2 oC1 100 3 1 1 fuel t s = .more s2 ∧ s2.delay = 0 ∧ s2.iters = 0 := by
  intro fuel
  induction fuel with
  | zero =>
    intro t s hd hi
    have hc : s.delay < 100 ∧ s.iters < 1 := ⟨by omega, by omega⟩
    refine ⟨s, ?_, hd, hi⟩
    simp only [loopRun, if_pos hc]
  | succ k ih =>
    intro t s hd hi
    have hc : s.delay < 100 ∧ s.iters < 1 := ⟨by omega, by omega⟩
    obtain ⟨A, hA⟩ : ∃ A, roundStep g2 oC1 3 1 t s =
        .ok ⟨s.delay, s.prevSparsity, s.iters, none, A⟩ := ⟨_, rfl⟩
    obtain ⟨s2, h2, hd2, hi2⟩ := ih (t + 1) ⟨s.delay, s.prevSparsity, s.iters, none, A⟩ hd hi
    refine ⟨s2, ?_, hd2, hi2⟩
    simp only [loopRun, if_pos hc, hA]
    exact h2

/-- C1: refuted on the code. With `iterations = 1` and an oracle under which
the random baseline wins every round, the loop is still running
(`RunResult.more`) after `fuel` body executions, for every `fuel`: since
`iters` is only incremented under `topscore != 0`, the while loop does not
exit within `iterations` body executions, contradicting the hard-cap claim
(and the docstring of `cluster_graph`). -/
theorem c1_loop_exceeds_iterations :
    ∀ fuel : Nat, ∃ s2, loopRun g2 oC1 100 3 1 1 fuel 0 (initState g2) = RunResult.more s2 := by
  intro fuel
  obtain ⟨s2, h, _, _⟩ := c1_baseline_rounds_aux fuel 0 (initState g2) rfl rfl
  exact ⟨s2, h⟩

/-- C2 counterexample: a concrete loop-body execution in which the baseline
(index 0) wins leaves `iters` at 0 instead of incrementing it to 1, and
leaves `prev_sparsity` untouched. -/
theorem c2_counterexample :
    ∃ s2, roundStep g2 oC1 3 1 0 (initState g2) = Except.ok s2 ∧
      s2.iters = 0 ∧ s2.prevSparsity = 0 ∧ (initState g2).iters = 0 ∧
      topscoreAt oC1 1 0 = 0 :=
  ⟨_, rfl, rfl, rfl, rfl, rfl⟩

/-- C2 (amended): a loop-body execution updates the run state only when the
best score index is nonzero: then `prev_sparsity` becomes the round's
sparsity value, `iters` grows by exactly 1 and `delay` follows `delayUpdate`;
when the baseline (index 0) wins, `prev_sparsity`, `iters` and `delay` are
all left unchanged. -/
theorem c2_round_state_updates (g : Graph) (o : Oracle) (dr mc t : Nat) (s s2 : LoopState)
    (h : roundStep g o dr mc t s = .ok s2) :
    (topscoreAt o mc t ≠ 0 →
      s2.iters = s.iters + 1 ∧
      sparsityOf g (o.kmeans t (topscoreAt o mc t)) = Except.ok s2.prevSparsity ∧
      s2.delay = delayUpdate s.prevSparsity s.delay s2.prevSparsity) ∧
    (topscoreAt o mc t = 0 →
      s2.iters = s.iters ∧ s2.prevSparsity = s.prevSparsity ∧ s2.delay = s.delay) := by
  obtain ⟨A2, hd, hc⟩ := roundStep_cases g o dr mc t s s2 h
  rcases hc with ⟨htop, sp, hsp, rfl⟩ | ⟨htop, rfl⟩
  · exact ⟨fun _ => ⟨rfl, hsp, rfl⟩, fun h0 => absurd h0 htop⟩
  · exact ⟨fun hne => absurd htop hne, fun _ => ⟨rfl, rfl, rfl⟩⟩

/-- Witness for C2's amended theorem: at a concrete productive round,
`iters` grows from 0 to 1. -/
theorem c2_round_state_updates_witness : s2r0.iters = (initState g2).iters + 1 :=
  ((c2_round_state_updates g2 o2 3 1 0 (initState g2) s2r0 rfl).1 (by decide)).1

/-- C3: refuted on the code. With `iterations = 5` on a two-node graph, five
productive rounds exhaust the budget without convergence (`delay = 5 < limit`
while `iters` reaches `iterations`), yet the returned warning flag is
`false`: the post-loop test is literally `iters == 1000`, not
`iters >= iterations`. -/
theorem c3_no_warning_at_custom_iterations :
    cluster_graph g2 o2 100 3 1 5 5 = some (Except.ok ([(0, 0), (1, 0)], false)) := by
  decide

/-- C4 counterexample: on a two-node graph whose only edge lacks the weight
attribute, `cluster_graph` raises KeyError out of the sparsity evaluation:
a missing weight is fatal there, not recovered as 1.0. -/
theorem c4_counterexample :
    cluster_graph g4 o4 100 3 1 5 1 = some (Except.error PyErr.keyError) := by decide

/-- C4 (amended): a missing weight attribute is recovered as 1.0 only during
diffusion; the sparsity evaluation's lookup has no handler, and on the
missing-weight graph `g4` it raises KeyError. -/
theorem c4_missing_weight (g : Graph) (u v : Nat) (h : edgeData g u v = some none) :
    diffWeight g u v = Except.ok 1 ∧ sparsityOf g4 [0, 1] = Except.error PyErr.keyError := by
  constructor
  · unfold diffWeight
    rw [h]
  · decide

/-- Witness for C4's amended theorem at the concrete missing-weight edge. -/
theorem c4_missing_weight_witness :
    diffWeight g4 0 1 = Except.ok 1 ∧ sparsityOf g4 [0, 1] = Except.error PyErr.keyError :=
  c4_missing_weight g4 0 1 rfl

/-- C5 counterexample: for the two-triangle graph and its matching 2-cluster
partition the sparsity evaluation yields 2, not 1: the single positive
cross-cluster edge is counted once from each endpoint's cluster. -/
theorem c5_counterexample :
    sparsityOf gTri bcTri = Except.ok 2 ∧ sparsityOf gTri bcTri ≠ Except.ok 1 := by decide

/-- C5 (amended): the sparsity score of the two-triangle 2-cluster partition
is exactly 2 (one positive cross-cluster edge counted from both sides). -/
theorem c5_two_triangles_sparsity : sparsityOf gTri bcTri = Except.ok 2 := by decide

/-- C6: with `limit = 2`, the convergence controller fed the sparsity trace
`[5, 5, 5, 4, 4]` stops after exactly three rounds, with `prev_sparsity = 5`
and `delay = 2 >= limit` (converged, not exhausted); the fourth value is
never consumed. -/
theorem c6_delay_convergence : convRun 2 [5, 5, 5, 4, 4] (0, 0, 0) = (5, 2, 3) := by decide

/-- C7: the affinity matrix is symmetric after every round: whatever state a
fuel-bounded run of the loop carries out of the all-zeros initialization, its
matrix satisfies `A i j = A j i` for all `i`, `j`. -/
theorem c7_affinity_symmetric (g : Graph) (o : Oracle) (limit : Int) (dr mc : Nat)
    (iterations : Int) (fuel : Nat) (s2 : LoopState)
    (h : resultState (loopRun g o limit dr mc iterations fuel 0 (initState g)) = some s2) :
    Symm s2.adj :=
  loopRun_symm g o limit dr mc iterations fuel 0 (initState g) s2 (fun _ _ => rfl) h

/-- Witness for C7 on a concrete one-round run. -/
theorem c7_affinity_symmetric_witness : Symm s7run.adj :=
  c7_affinity_symmetric g2 o2 100 3 1 5 1 s7run rfl

/-- C8 counterexample: a round in which the baseline wins overwrites a
previously held assignment with `None`: from a state holding `some [1, 1]`,
the state after the round holds `none`, not the previous value. -/
theorem c8_counterexample :
    ∃ s2, roundStep g2 oC1 3 1 0 sHeld = Except.ok s2 ∧ s2.best = none ∧
      sHeld.best = some [1, 1] :=
  ⟨_, rfl, rfl, rfl⟩

/-- C8 (amended): in any round whose best score index is 0 the assignment
variable is reset to `None` at the start of cluster selection and never
reassigned, so after the round it is `None` rather than the previously held
assignment. -/
theorem c8_baseline_round_resets_best (g : Graph) (o : Oracle) (dr mc t : Nat)
    (s s2 : LoopState) (h : roundStep g o dr mc t s = .ok s2)
    (htop : topscoreAt o mc t = 0) : s2.best = none := by
  obtain ⟨A2, hd, hc⟩ := roundStep_cases g o dr mc t s s2 h
  rcases hc with ⟨hne, _, _, rfl⟩ | ⟨_, rfl⟩
  · exact absurd htop hne
  · rfl

/-- Witness for C8's amended theorem at a concrete baseline-winning round. -/
theorem c8_baseline_round_resets_best_witness : s8run.best = none :=
  c8_baseline_round_resets_best g2 oC1 3 1 0 sHeld s8run rfl rfl

/-- C9: (a) one loop-body execution changes the affinity matrix only in the
seed's row and column; (b) consequently, in the state carried out of any run
from the zero matrix, `adj i j` is nonzero only if `i` or `j` is the seed
index of some earlier round. -/
theorem c9_seed_row_col :
    (∀ (g : Graph) (o : Oracle) (dr mc t : Nat) (s s2 : LoopState),
        roundStep g o dr mc t s = .ok s2 →
        ∀ a b, a ≠ seedIdxAt g o t → b ≠ seedIdxAt g o t → s2.adj a b = s.adj a b) ∧
    (∀ (g : Graph) (o : Oracle) (limit : Int) (dr mc : Nat) (iterations : Int)
        (fuel : Nat) (s2 : LoopState),
        resultState (loopRun g o limit dr mc iterations fuel 0 (initState g)) = some s2 →
        ∀ i j, s2.adj i j ≠ 0 → ∃ t, t < fuel ∧ (i = seedIdxAt g o t ∨ j = seedIdxAt g o t)) := by
  constructor
  · exact roundStep_frame
  · intro g o limit dr mc iterations fuel s2 h i j hne
    have h0 : SeedInv g o 0 (initState g).adj := fun i j hne0 => absurd rfl hne0
    have h1 := loopRun_seedInv g o limit dr mc iterations fuel 0 (initState g) s2 h0 h
    simpa using h1 i j hne

/-- Witness for C9 at a concrete round (off-seed entry unchanged) and a
concrete run (the nonzero entry `(0, 1)` lies on the seed row). -/
theorem c9_seed_row_col_witness :
    s2r0.adj 3 4 = (initState g2).adj 3 4 ∧
      ∃ t, t < 1 ∧ ((0 : Nat) = seedIdxAt g2 o2 t ∨ (1 : Nat) = seedIdxAt g2 o2 t) :=
  ⟨c9_seed_row_col.1 g2 o2 3 1 0 (initState g2) s2r0 rfl 3 4 (by decide) (by decide),
   c9_seed_row_col.2 g2 o2 100 3 1 5 1 s7run rfl 0 1 (by with_unfolding_all decide)⟩

/-- C10: on a graph with an empty node set, `cluster_graph` with the default
parameters does not return a labelling: the first round's `choice` over the
empty node list raises IndexError, whatever the oracle, the edge list and the
(positive) fuel. -/
theorem c10_empty_graph_raises (o : Oracle) (es : List (Nat × Nat × Option ℚ)) (fuel : Nat)
    (hf : 1 ≤ fuel) :
    cluster_graph ⟨[], es⟩ o 100 3 5 1000 fuel = some (Except.error PyErr.indexError) := by
  obtain ⟨k, rfl⟩ : ∃ k, fuel = k + 1 := ⟨fuel - 1, by omega⟩
  rfl

/-- Witness for C10 with fuel 1 and a concrete oracle. -/
theorem c10_empty_graph_raises_witness :
    cluster_graph ⟨[], []⟩ o2 100 3 5 1000 1 = some (Except.error PyErr.indexError) :=
  c10_empty_graph_raises o2 [] 1 (by decide)

end Manca
